import Mathlib

set_option maxHeartbeats 1000000

/-!
Verification of the trust-boundary protocol of the construction-management
microservice backend: the API gateway's edge authentication and identity
propagation, the orders service's internal re-authentication, the role gate,
request correlation, and the users service's password-hash stripping.

Request headers are modelled as a record of the header fields the protocol
reads and writes; a field is `none` when the header is absent.  JavaScript
truthiness on a header value (`if (req.headers[...])`) is modelled by
`truthy`.  JWT verification (`jwt.verify` with the shared secret) is modelled
as a function parameter from token strings to either a verification error or
the decoded payload.
-/

structure Headers where
  authorization : Option String
  xUserId : Option String
  xUserEmail : Option String
  xUserRoles : Option String
  xRequestId : Option String
  deriving DecidableEq, Repr

def emptyHeaders : Headers := ⟨none, none, none, none, none⟩

/-- Truthiness of a header value as JavaScript sees it: present and not the
empty string. -/
def truthy : Option String → Bool
  | none => false
  | some s => !(s == "")

/-- Reading a header that JavaScript would coerce with `|| ''`: an absent
header reads as the empty string. -/
def jsGetD (o : Option String) : String := o.getD ""

inductive VerifyError where
  | expired
  | invalid
  deriving DecidableEq, Repr

/-- Decoded JWT payload as issued by the users service's login route
(`src/service_users/src/routes/auth.js`): `{ id, email, name, roles }`.
The `roles` field is optional because the internal re-authenticator guards it
with `decoded.roles || ['engineer']`. -/
structure TokenPayload where
  id : String
  email : String
  roles : Option (List String)
  deriving DecidableEq, Repr

abbrev Verifier := String → Except VerifyError TokenPayload

/-- Character-level model of JavaScript `String.split(' ')`: splits on every
single space, keeping empty segments, and `''.split(' ')` is `['']`. -/
def splitOnSpaceAux : List Char → List Char → List (List Char)
  | [], acc => [acc.reverse]
  | c :: cs, acc =>
    if c = ' ' then acc.reverse :: splitOnSpaceAux cs []
    else splitOnSpaceAux cs (c :: acc)

/-- Bearer-token extraction shared by every middleware in the repository:
`const token = authHeader && authHeader.split(' ')[1]` followed by
`if (!token)`.  Returns `none` exactly when the JavaScript `token` value is
falsy (header absent or empty, no second segment, or an empty second
segment). -/
def extractBearer (authHeader : Option String) : Option String :=
  match authHeader with
  | none => none
  | some h =>
    if h = "" then none
    else
      match (splitOnSpaceAux h.data []).get? 1 with
      | none => none
      | some t => if t = [] then none else some (String.mk t)

/-- Character-level model of JavaScript `String.startsWith`. -/
def startsWithChars : List Char → List Char → Bool
  | _, [] => true
  | [], _ :: _ => false
  | c :: cs, d :: ds => c == d && startsWithChars cs ds

def strStartsWith (s pat : String) : Bool := startsWithChars s.data pat.data

/-- Public allow-list of the gateway
(`src/api_gateway/src/middleware/auth.js`, lines 4-15). -/
def publicRoutes : List String :=
  [ "/api/v1/users/register"
  , "/api/v1/users/login"
  , "/health"
  , "/"
  , "/api-docs"
  , "/api-docs/"
  , "/api-docs/swagger-ui.css"
  , "/api-docs/swagger-ui-bundle.js"
  , "/api-docs/swagger-ui-standalone-preset.js"
  , "/api-docs/favicon-32x32.png"
  ]

/-- The gateway's allow-list test:
`publicRoutes.some(route => req.path === route || req.path.startsWith(route))`. -/
def isPublicPath (path : String) : Bool :=
  publicRoutes.any (fun route => path == route || strStartsWith path route)

/-!
JSON codec for the `x-user-roles` header.  The gateway serializes the role
list with `JSON.stringify(user.roles)` and the orders service reads it back
with `JSON.parse(...)` inside a try/catch.  The codec below models exactly
the string-array fragment of JSON that `JSON.stringify` produces for a list
of strings (no whitespace; `"` and `\` escaped; the control characters
backspace, tab, newline, form feed and carriage return as their two-character
escapes; other control characters as lowercase `\u00XX`).  The parser
accepts that fragment and fails (like the thrown exception in the source's
try/catch) on input that is not such a string array.
-/

def hexDigit (n : Nat) : Char :=
  if n < 10 then Char.ofNat (48 + n) else Char.ofNat (87 + n)

def hexVal (c : Char) : Option Nat :=
  if 48 ≤ c.toNat ∧ c.toNat ≤ 57 then some (c.toNat - 48)
  else if 97 ≤ c.toNat ∧ c.toNat ≤ 102 then some (c.toNat - 87)
  else if 65 ≤ c.toNat ∧ c.toNat ≤ 70 then some (c.toNat - 55)
  else none

def hex4 (a b c d : Char) : Option Nat :=
  match hexVal a, hexVal b, hexVal c, hexVal d with
  | some x, some y, some z, some w => some (x * 4096 + y * 256 + z * 16 + w)
  | _, _, _, _ => none

/-- Escaping of one character inside a JSON string literal, as produced by
`JSON.stringify`. -/
def escapeChar (c : Char) : List Char :=
  if c = '"' then ['\\', '"']
  else if c = '\\' then ['\\', '\\']
  else if c = '\x08' then ['\\', 'b']
  else if c = '\t' then ['\\', 't']
  else if c = '\n' then ['\\', 'n']
  else if c = '\x0c' then ['\\', 'f']
  else if c = '\r' then ['\\', 'r']
  else if c.toNat < 32 then
    ['\\', 'u', '0', '0', hexDigit (c.toNat / 16), hexDigit (c.toNat % 16)]
  else [c]

def escapeList (s : List Char) : List Char := (s.map escapeChar).flatten

def unescapeChar (e : Char) : Option Char :=
  if e = '"' then some '"'
  else if e = '\\' then some '\\'
  else if e = '/' then some '/'
  else if e = 'b' then some '\x08'
  else if e = 't' then some '\t'
  else if e = 'n' then some '\n'
  else if e = 'f' then some '\x0c'
  else if e = 'r' then some '\r'
  else none

/-- Parse the body of a JSON string literal (everything after the opening
quote); returns the decoded characters and the input remaining after the
closing quote. -/
def parseStrBody : List Char → Option (List Char × List Char)
  | [] => none
  | c :: rest =>
    if c = '"' then some ([], rest)
    else if c = '\\' then
      match rest with
      | [] => none
      | e :: rest2 =>
        if e = 'u' then
          match rest2 with
          | h1 :: h2 :: h3 :: h4 :: rest3 =>
            match hex4 h1 h2 h3 h4 with
            | none => none
            | some n =>
              match parseStrBody rest3 with
              | none => none
              | some p => some (Char.ofNat n :: p.1, p.2)
          | _ => none
        else
          match unescapeChar e with
          | none => none
          | some d =>
            match parseStrBody rest2 with
            | none => none
            | some p => some (d :: p.1, p.2)
    else
      match parseStrBody rest with
      | none => none
      | some p => some (c :: p.1, p.2)

/-- Parse a comma-separated sequence of JSON string literals terminated by
`]`; the fuel bounds the number of items. -/
def parseItems : Nat → List Char → Option (List String × List Char)
  | 0, _ => none
  | fuel + 1, l =>
    match l with
    | '"' :: rest =>
      (match parseStrBody rest with
       | none => none
       | some (s, rest2) =>
         match rest2 with
         | ']' :: rest3 => some ([String.mk s], rest3)
         | ',' :: rest3 =>
           (match parseItems fuel rest3 with
            | none => none
            | some p => some (String.mk s :: p.1, p.2))
         | _ => none)
    | _ => none

/-- Character-level encoding of the items of a nonempty string array,
including the closing bracket. -/
def encodeItemsChars : List String → List Char
  | [] => [']']
  | [s] => '"' :: (escapeList s.data ++ ('"' :: [']']))
  | s :: rest => '"' :: (escapeList s.data ++ ('"' :: ',' :: encodeItemsChars rest))

/-- Model of `JSON.stringify` applied to an array of strings. -/
def jsonStringifyStringArray (l : List String) : String :=
  match l with
  | [] => "[]"
  | _ => String.mk ('[' :: encodeItemsChars l)

/-- Model of `JSON.parse` on the string-array fragment of JSON: returns
`none` (the source's thrown exception) when the input is not a string array
in the canonical form emitted by `jsonStringifyStringArray`. -/
def jsonParseStringArray (s : String) : Option (List String) :=
  match s.data with
  | '[' :: rest =>
    if rest = [']'] then some []
    else
      match parseItems rest.length rest with
      | some (l, []) => some l
      | _ => none
  | _ => none

/-!
Gateway edge authentication, `src/api_gateway/src/middleware/auth.js`.
-/

inductive GatewayResult where
  | forward (hdrs : Headers) (user : Option TokenPayload)
  | reject (status : Nat) (code : String)
  deriving DecidableEq, Repr

/-- Header injection performed on success of the gateway's token
verification (auth.js, lines 47-49): `req.headers['x-user-id'] = user.id`,
`req.headers['x-user-email'] = user.email`,
`req.headers['x-user-roles'] = JSON.stringify(user.roles)`.  When the
payload has no roles field, `JSON.stringify(undefined)` is `undefined` and
the header reads as absent. -/
def Gateway.injectHeaders (hdrs : Headers) (user : TokenPayload) : Headers :=
  { hdrs with
      xUserId := some user.id
      xUserEmail := some user.email
      xUserRoles := user.roles.map jsonStringifyStringArray }

/-- Lines 21-52 of the gateway's auth.js: everything after the public-route
check.  Missing token yields 401 `TOKEN_REQUIRED`; any `jwt.verify` error —
expired or invalid alike — yields 403 `INVALID_TOKEN`; on success the claims
are stored on the request and the identity headers injected. -/
def Gateway.tokenGate (hdrs : Headers) (verify : Verifier) : GatewayResult :=
  match extractBearer hdrs.authorization with
  | none => .reject 401 "TOKEN_REQUIRED"
  | some tok =>
    match verify tok with
    | .error _ => .reject 403 "INVALID_TOKEN"
    | .ok user => .forward (Gateway.injectHeaders hdrs user) (some user)

/-- The gateway's `authenticateToken` middleware: allow-list check first
(lines 4-19), then the token gate. -/
def Gateway.authenticateToken (path : String) (hdrs : Headers)
    (verify : Verifier) : GatewayResult :=
  if isPublicPath path then .forward hdrs none
  else Gateway.tokenGate hdrs verify

/-!
Reverse dispatcher, `src/api_gateway/src/middleware/proxy.js`.
`http-proxy-middleware` builds the outbound request from the inbound
request's headers (the `changeOrigin` option only rewrites the Host header),
then runs the configured `onProxyReq` hook.  Neither service configuration
removes any header.
-/

/-- The `onProxyReq` hook configured identically for the users and orders
services: each of the four identity/correlation headers is copied from the
inbound request onto the outbound one when truthy. -/
def onProxyReq (outbound req : Headers) : Headers :=
  let o1 := if truthy req.xUserId then { outbound with xUserId := req.xUserId } else outbound
  let o2 := if truthy req.xUserEmail then { o1 with xUserEmail := req.xUserEmail } else o1
  let o3 := if truthy req.xUserRoles then { o2 with xUserRoles := req.xUserRoles } else o2
  if truthy req.xRequestId then { o3 with xRequestId := req.xRequestId } else o3

/-- Headers of the proxied outbound request: the proxy starts from the
inbound request's headers and then runs `onProxyReq`. -/
def proxyOutbound (req : Headers) : Headers := onProxyReq req req

/-- Response as seen by the client when an upstream failure is answered:
the HTTP status and, when the body is the repository's JSON error envelope,
its machine-readable `error.code`. -/
structure RawResponse where
  status : Nat
  jsonErrorCode : Option String
  deriving DecidableEq, Repr

inductive UpstreamFailure where
  | connRefused
  | timedOut
  | connReset
  deriving DecidableEq, Repr

/-- Per-service proxy options exactly as configured in proxy.js: `onError` is
modelled as an optional handler because the source registers none, and the
`timeout`/`proxyTimeout` options are likewise absent. -/
structure ProxyOptions where
  target : String
  pathRewriteFrom : String
  pathRewriteTo : String
  changeOrigin : Bool
  onError : Option (UpstreamFailure → RawResponse)
  timeout : Option Nat
  proxyTimeout : Option Nat

def servicesUsers : ProxyOptions :=
  ⟨"http://localhost:3001", "^/api/v1/users", "/api/v1/users", true, none, none, none⟩

def servicesOrders : ProxyOptions :=
  ⟨"http://localhost:3002", "^/api/v1/orders", "/api/v1/orders", true, none, none, none⟩

/-- Default error handling of http-proxy-middleware (version 2) when the
configuration registers no `onError`: connection failures such as
ECONNREFUSED, ETIMEDOUT and ECONNRESET are answered 504 with a plain-text
body — not the repository's JSON error envelope, so no machine-readable
error code. -/
def defaultProxyErrorResponse : UpstreamFailure → RawResponse :=
  fun _ => ⟨504, none⟩

/-- Response produced when the upstream target of a dispatched request is
unreachable or times out. -/
def proxyFailureResponse (cfg : ProxyOptions) (f : UpstreamFailure) : RawResponse :=
  (cfg.onError.getD defaultProxyErrorResponse) f

/-- Every machine-readable error code the gateway source ever places in an
error envelope: the rate limiter, the auth middleware, the 404 handler and
the unhandled-error handler. -/
def gatewayErrorCodes : List String :=
  ["RATE_LIMIT_EXCEEDED", "TOKEN_REQUIRED", "INVALID_TOKEN", "NOT_FOUND",
   "INTERNAL_SERVER_ERROR"]

/-!
Internal re-authentication of the orders service
(`src/unnamed/part_002`, `authenticateToken` and `authorizeRoles`).
-/

/-- Checkpoint-scoped identity (`req.user`) as built by the middleware. -/
structure Identity where
  id : String
  email : String
  roles : List String
  deriving DecidableEq, Repr

/-- The fixed placeholder identity of the degraded fallback. -/
def Orders.defaultUser : Identity :=
  ⟨"a4841802-6006-42ec-9074-65fdf2138880", "test@example.com", ["engineer"]⟩

/-- Strategy 1 (gateway headers): taken when `x-user-id` is truthy.  The
roles come from the ternary
`req.headers['x-user-roles'] ? JSON.parse(...) : ['engineer']`; a parse
failure throws inside the try block and the catch falls through to the
next strategy, modelled by `none`. -/
def Orders.strategyHeaders (hdrs : Headers) : Option Identity :=
  if truthy hdrs.xUserId then
    if truthy hdrs.xUserRoles then
      match jsonParseStringArray (jsGetD hdrs.xUserRoles) with
      | some rs => some ⟨jsGetD hdrs.xUserId, jsGetD hdrs.xUserEmail, rs⟩
      | none => none
    else some ⟨jsGetD hdrs.xUserId, jsGetD hdrs.xUserEmail, ["engineer"]⟩
  else none

/-- Roles default of the token strategy: `decoded.roles || ['engineer']`.
An explicitly empty array is truthy in JavaScript, so only an absent field
triggers the default. -/
def rolesOrDefault : Option (List String) → List String
  | none => ["engineer"]
  | some rs => rs

/-- Strategy 2 (direct JWT): taken when a bearer token is present and
verifies; a verification error is caught and falls through. -/
def Orders.strategyToken (auth : Option String) (verify : Verifier) : Option Identity :=
  match extractBearer auth with
  | none => none
  | some tok =>
    match verify tok with
    | .error _ => none
    | .ok p => some ⟨p.id, p.email, rolesOrDefault p.roles⟩

/-- The orders service's `authenticateToken`: headers first, then the direct
token, then the fixed default user; it always calls `next()` and never
rejects. -/
def Orders.authenticateToken (hdrs : Headers) (verify : Verifier) : Identity :=
  match Orders.strategyHeaders hdrs with
  | some u => u
  | none =>
    match Orders.strategyToken hdrs.authorization verify with
    | some u => u
    | none => Orders.defaultUser

inductive RouteResult where
  | next
  | reject (status : Nat) (code : String)
  deriving DecidableEq, Repr

/-- The role gate `authorizeRoles(...allowedRoles)` as implemented
identically in the orders service (`src/unnamed/part_002`) and the users
service (`src/unnamed/part_007`): deny 403 `FORBIDDEN` when no user or no
roles, otherwise allow exactly when
`allowedRoles.some(role => req.user.roles.includes(role))`. -/
def authorizeRoles (allowedRoles : List String) (user : Option Identity) : RouteResult :=
  match user with
  | none => .reject 403 "FORBIDDEN"
  | some u =>
    if allowedRoles.any (fun role => u.roles.contains role) then .next
    else .reject 403 "FORBIDDEN"

/-- Role gate as the specification words it: `allowed(claimRoles,
requiredRoles) = requiredRoles is empty OR claimRoles intersects
requiredRoles non-emptily`.  Stated for comparison with `authorizeRoles`. -/
def allowedSpec (claimRoles requiredRoles : List String) : Bool :=
  requiredRoles.isEmpty || requiredRoles.any (fun r => claimRoles.contains r)

/-!
Correlation tagging middleware of the gateway (`src/unnamed/part_001`,
lines 187-193).  The generator chain
`req.headers['x-request-id'] || rTracer.id() || crypto.randomUUID()` is
modelled with the tracer identifier and the random UUID as parameters.
-/

def chooseRequestId (inbound tracer : Option String) (randomId : String) : String :=
  if truthy inbound then jsGetD inbound
  else if truthy tracer then jsGetD tracer
  else randomId

/-- Result of the tagging middleware: the mutated inbound header set and the
`x-request-id` response header it sets. -/
structure TaggedRequest where
  reqHeaders : Headers
  responseXRequestId : String
  deriving DecidableEq, Repr

def tagRequest (hdrs : Headers) (tracer : Option String) (randomId : String) : TaggedRequest :=
  let requestId := chooseRequestId hdrs.xRequestId tracer randomId
  ⟨{ hdrs with xRequestId := some requestId }, requestId⟩

/-!
Users service profile and listing endpoints (the in-memory store variant in
`src/service_users/src/db/queries.js` after the repository class: routes
`GET /profile` and `GET /` over the `users` array exported by
`src/service_users/src/routes/auth.js`).
-/

/-- Stored user record as created by the registration route. -/
structure StoredUser where
  id : String
  email : String
  passwordHash : String
  name : String
  roles : List String
  createdAt : String
  updatedAt : String
  deriving DecidableEq, Repr

/-- A user record with the password hash removed, as produced by
`const { passwordHash, ...userWithoutPassword } = user`. -/
structure PublicUser where
  id : String
  email : String
  name : String
  roles : List String
  createdAt : String
  updatedAt : String
  deriving DecidableEq, Repr

def stripPassword (u : StoredUser) : PublicUser :=
  ⟨u.id, u.email, u.name, u.roles, u.createdAt, u.updatedAt⟩

inductive ProfileResponse where
  | err (status : Nat) (code : String)
  | ok (user : PublicUser)
  deriving DecidableEq, Repr

/-- `GET /api/v1/users/profile`: find the authenticated user by id, 404 when
absent, otherwise return the record without its password hash. -/
def Users.getProfile (users : List StoredUser) (uid : String) : ProfileResponse :=
  match users.find? (fun u => u.id == uid) with
  | none => .err 404 "USER_NOT_FOUND"
  | some u => .ok (stripPassword u)

structure UsersListResponse where
  users : List PublicUser
  page : Nat
  limit : Nat
  total : Nat
  totalPages : Nat
  deriving DecidableEq, Repr

/-- `GET /api/v1/users` (admin listing): optional role filter, then
`slice(startIndex, endIndex)` pagination, then password-hash stripping.
The query-string numbers are modelled as naturals (`page - 1` truncates at
zero, and `totalPages` uses ceiling division, defined here as 0 when
`limit = 0` where JavaScript would produce Infinity). -/
def Users.listUsers (users : List StoredUser) (page limit : Nat)
    (role : Option String) : UsersListResponse :=
  let filteredUsers : List StoredUser := match role with
    | some r => users.filter (fun u => u.roles.contains r)
    | none => users
  let startIndex := (page - 1) * limit
  let endIndex := page * limit
  let paginatedUsers := (filteredUsers.drop startIndex).take (endIndex - startIndex)
  ⟨paginatedUsers.map stripPassword, page, limit, filteredUsers.length,
    (filteredUsers.length + limit - 1) / limit⟩

/-- Two user stores agree on everything except possibly the password hashes:
same length, and pointwise equal after `stripPassword`. -/
def sameExceptHashes : List StoredUser → List StoredUser → Bool
  | [], [] => true
  | u :: us, v :: vs => stripPassword u == stripPassword v && sameExceptHashes us vs
  | _, _ => false

/-- The identity-propagation round trip of the spec: a verified claim set is
injected into the identity headers at the gateway, the request is proxied,
and the orders service re-authenticates from the propagated headers. -/
def gatewayToInternal (c : Identity) (verify : Verifier) : Identity :=
  Orders.authenticateToken
    (proxyOutbound (Gateway.injectHeaders emptyHeaders ⟨c.id, c.email, some c.roles⟩))
    verify

/-!
Helper lemmas, followed by one theorem per claim.
-/
theorem hexVal_hexDigit : ∀ m, m < 16 → hexVal (hexDigit m) = some m := by decide

theorem hex4_00 (n : Nat) (hn : n < 32) :
    hex4 '0' '0' (hexDigit (n / 16)) (hexDigit (n % 16)) = some n := by
  have h1 : n / 16 < 16 := by omega
  have h2 : n % 16 < 16 := by omega
  simp only [hex4, hexVal_hexDigit _ h1, hexVal_hexDigit _ h2,
    show hexVal '0' = some 0 by decide]
  congr 1
  omega

theorem parse_u_escape (n : Nat) (hn : n < 32) (l : List Char) :
    parseStrBody ('\\' :: 'u' :: '0' :: '0' :: hexDigit (n / 16) :: hexDigit (n % 16) :: l) =
      match parseStrBody l with
      | none => none
      | some p => some (Char.ofNat n :: p.1, p.2) := by
  rw [parseStrBody.eq_def]
  simp +decide [hex4_00 n hn]

theorem parseStrBody_escape (c : Char) (l : List Char) :
    parseStrBody (escapeChar c ++ l) =
      match parseStrBody l with
      | none => none
      | some p => some (c :: p.1, p.2) := by
  by_cases h1 : c = '"'
  · subst h1
    rw [show escapeChar '"' ++ l = '\\' :: '"' :: l from rfl, parseStrBody.eq_def]
    simp +decide [unescapeChar]
  by_cases h2 : c = '\\'
  · subst h2
    rw [show escapeChar '\\' ++ l = '\\' :: '\\' :: l from rfl, parseStrBody.eq_def]
    simp +decide [unescapeChar]
  by_cases e1 : c = '\x08'
  · subst e1
    rw [show escapeChar '\x08' ++ l = '\\' :: 'b' :: l from rfl, parseStrBody.eq_def]
    simp +decide [unescapeChar]
  by_cases e2 : c = '\t'
  · subst e2
    rw [show escapeChar '\t' ++ l = '\\' :: 't' :: l from rfl, parseStrBody.eq_def]
    simp +decide [unescapeChar]
  by_cases e3 : c = '\n'
  · subst e3
    rw [show escapeChar '\n' ++ l = '\\' :: 'n' :: l from rfl, parseStrBody.eq_def]
    simp +decide [unescapeChar]
  by_cases e4 : c = '\x0c'
  · subst e4
    rw [show escapeChar '\x0c' ++ l = '\\' :: 'f' :: l from rfl, parseStrBody.eq_def]
    simp +decide [unescapeChar]
  by_cases e5 : c = '\r'
  · subst e5
    rw [show escapeChar '\r' ++ l = '\\' :: 'r' :: l from rfl, parseStrBody.eq_def]
    simp +decide [unescapeChar]
  by_cases h8 : c.toNat < 32
  · have hesc : escapeChar c ++ l =
        '\\' :: 'u' :: '0' :: '0' :: hexDigit (c.toNat / 16) :: hexDigit (c.toNat % 16) :: l := by
      simp only [escapeChar, if_neg h1, if_neg h2, if_neg e1, if_neg e2, if_neg e3,
        if_neg e4, if_neg e5, if_pos h8, List.cons_append, List.nil_append]
    rw [hesc, parse_u_escape c.toNat h8 l, Char.ofNat_toNat]
  · have hesc : escapeChar c ++ l = c :: l := by
      simp only [escapeChar, if_neg h1, if_neg h2, if_neg e1, if_neg e2, if_neg e3,
        if_neg e4, if_neg e5, if_neg h8, List.cons_append, List.nil_append]
    rw [hesc, parseStrBody.eq_def]
    simp only [if_neg h1, if_neg h2]

theorem parseStrBody_encode (s : List Char) (l : List Char) :
    parseStrBody (escapeList s ++ ('"' :: l)) = some (s, l) := by
  induction s with
  | nil =>
    rw [show escapeList [] ++ ('"' :: l) = '"' :: l from rfl, parseStrBody.eq_def]
    simp +decide
  | cons c cs ih =>
    have h : escapeList (c :: cs) = escapeChar c ++ escapeList cs := by
      simp [escapeList]
    rw [h, List.append_assoc, parseStrBody_escape, ih]

theorem encodeItemsChars_length (ss : List String) :
    ss.length ≤ (encodeItemsChars ss).length := by
  induction ss with
  | nil => simp [encodeItemsChars]
  | cons s rest ih =>
    cases rest with
    | nil => simp [encodeItemsChars]
    | cons s2 rest2 =>
      simp only [encodeItemsChars, List.length_cons, List.length_append] at *
      omega

theorem parseItems_encode : ∀ (ss : List String) (fuel : Nat), ss ≠ [] →
    ss.length ≤ fuel → parseItems fuel (encodeItemsChars ss) = some (ss, []) := by
  intro ss
  induction ss with
  | nil => intro fuel h; exact absurd rfl h
  | cons s rest ih =>
    intro fuel _ hlen
    cases fuel with
    | zero => simp at hlen
    | succ f =>
      cases rest with
      | nil =>
        rw [show encodeItemsChars [s] = '"' :: (escapeList s.data ++ ('"' :: [']'])) from rfl]
        rw [parseItems.eq_def]
        simp only [parseStrBody_encode]
      | cons s2 rest2 =>
        rw [show encodeItemsChars (s :: s2 :: rest2) =
          '"' :: (escapeList s.data ++ ('"' :: ',' :: encodeItemsChars (s2 :: rest2))) from rfl]
        rw [parseItems.eq_def]
        simp only [parseStrBody_encode]
        rw [ih f (by simp) (by simpa using Nat.le_of_succ_le_succ hlen)]

theorem jsonStringify_ne_empty (l : List String) : jsonStringifyStringArray l ≠ "" := by
  cases l with
  | nil => decide
  | cons s rest =>
    intro h
    have : (jsonStringifyStringArray (s :: rest)).data = "".data := by rw [h]
    simp [jsonStringifyStringArray] at this

theorem jsonParse_stringify (l : List String) :
    jsonParseStringArray (jsonStringifyStringArray l) = some l := by
  cases l with
  | nil => decide
  | cons s rest =>
    rw [show jsonStringifyStringArray (s :: rest)
        = String.mk ('[' :: encodeItemsChars (s :: rest)) from rfl]
    rw [jsonParseStringArray.eq_def]
    have hne : ¬ (encodeItemsChars (s :: rest) = [']']) := by
      cases rest <;> simp [encodeItemsChars]
    simp only [if_neg hne]
    rw [parseItems_encode (s :: rest) (encodeItemsChars (s :: rest)).length (by simp)
      (encodeItemsChars_length _)]

theorem truthy_some_iff (s : String) : truthy (some s) = true ↔ s ≠ "" := by
  simp [truthy]

theorem proxyOutbound_eq (req : Headers) : proxyOutbound req = req := by
  unfold proxyOutbound onProxyReq
  by_cases h1 : truthy req.xUserId <;> by_cases h2 : truthy req.xUserEmail <;>
    by_cases h3 : truthy req.xUserRoles <;> by_cases h4 : truthy req.xRequestId <;>
    simp [h1, h2, h3, h4]

/-- C1: evidence for the code bug at the failing input: a request to the
protected path `/api/v1/orders/projects` carrying no Authorization header is
forwarded to the upstream service by the gateway's `authenticateToken`
(the allow-list entry `"/"` prefix-matches every path, so the allow-list
check succeeds on every request), instead of being rejected with
`TOKEN_REQUIRED`/401 as the claim states. -/
theorem c1_gateway_forwards_unauthenticated :
    Gateway.authenticateToken "/api/v1/orders/projects" emptyHeaders
        (fun _ => .error .invalid) = .forward emptyHeaders none ∧
    Gateway.authenticateToken "/api/v1/orders/projects" emptyHeaders
        (fun _ => .error .invalid) ≠ .reject 401 "TOKEN_REQUIRED" := by
  constructor
  · decide
  · decide

/-- C2: corrected.  The proxied outbound request's header set equals the
inbound one: the dispatcher forwards the inbound headers, `onProxyReq` only
re-sets the four identity/correlation headers to their inbound values, and
nothing strips the Authorization header — so the client's original bearer
token is forwarded to the internal service alongside the derived identity
headers. -/
theorem c2_proxy_forwards_all_headers : ∀ req : Headers, proxyOutbound req = req :=
  proxyOutbound_eq

/-- C2 counterexample to the claim as stated: at a concrete authenticated
request the outbound request still carries the client's original
Authorization bearer token. -/
theorem c2_authorization_not_stripped :
    (proxyOutbound ⟨some "Bearer client-token", some "u1", some "a@b.com",
        some "[\"manager\"]", some "req-1"⟩).authorization
      = some "Bearer client-token" := by decide

/-- C4 counterexample: a token whose verification fails with the expiry
error is rejected by the gateway's verify callback with `INVALID_TOKEN` and
HTTP 403 — not the distinct `TOKEN_EXPIRED` with 401 that the claim
states. -/
theorem c4_expired_collapsed_to_invalid :
    Gateway.tokenGate ⟨some "Bearer expired-token", none, none, none, none⟩
        (fun _ => .error .expired) = .reject 403 "INVALID_TOKEN" ∧
    Gateway.tokenGate ⟨some "Bearer expired-token", none, none, none, none⟩
        (fun _ => .error .expired) ≠ .reject 401 "TOKEN_EXPIRED" := by
  constructor
  · decide
  · decide

/-- C4 amended: the gateway does not distinguish verification-failure kinds:
a missing token is rejected 401 `TOKEN_REQUIRED`, and every verification
failure — expired and invalid alike — is rejected 403 `INVALID_TOKEN`. -/
theorem c4_token_failure_mapping : ∀ (hdrs : Headers) (verify : Verifier),
    (extractBearer hdrs.authorization = none →
      Gateway.tokenGate hdrs verify = .reject 401 "TOKEN_REQUIRED") ∧
    (∀ tok e, extractBearer hdrs.authorization = some tok → verify tok = .error e →
      Gateway.tokenGate hdrs verify = .reject 403 "INVALID_TOKEN") := by
  intro hdrs verify
  constructor
  · intro h
    simp [Gateway.tokenGate, h]
  · intro tok e h hv
    simp [Gateway.tokenGate, h, hv]

theorem c4_token_failure_mapping_witness :
    Gateway.tokenGate emptyHeaders (fun _ => .error .invalid)
        = .reject 401 "TOKEN_REQUIRED" ∧
    Gateway.tokenGate ⟨some "Bearer expired-tok", none, none, none, none⟩
        (fun _ => .error .expired) = .reject 403 "INVALID_TOKEN" :=
  ⟨(c4_token_failure_mapping emptyHeaders (fun _ => .error .invalid)).1 rfl,
   (c4_token_failure_mapping ⟨some "Bearer expired-tok", none, none, none, none⟩
      (fun _ => .error .expired)).2 "expired-tok" .expired (by decide) rfl⟩

/-- C5 counterexample: with an empty required-role list the repository's
role gate denies with `FORBIDDEN`/403, while the specification's pure
function allows any claim-role set against an empty requirement. -/
theorem c5_empty_required_denies :
    authorizeRoles [] (some ⟨"u1", "a@b.com", ["admin"]⟩)
        = .reject 403 "FORBIDDEN" ∧
    allowedSpec ["admin"] [] = true := by
  constructor
  · decide
  · decide

/-- C5 amended: the role gate allows exactly when the claim-role set
intersects the required-role set non-emptily — the empty-requiredRoles
escape of the specification is absent — and every denial is the uniform
`FORBIDDEN` response with status 403. -/
theorem c5_role_gate : ∀ (requiredRoles : List String) (u : Identity),
    (authorizeRoles requiredRoles (some u) = .next ↔
      ∃ r, r ∈ requiredRoles ∧ r ∈ u.roles) ∧
    (authorizeRoles requiredRoles (some u) = .next ∨
      authorizeRoles requiredRoles (some u) = .reject 403 "FORBIDDEN") := by
  intro req u
  constructor
  · simp [authorizeRoles, List.any_eq_true]
  · simp only [authorizeRoles]
    split
    · exact Or.inl rfl
    · exact Or.inr rfl

/-- C7: confirmed.  If the inbound `x-request-id` header is present and
non-empty it is reused verbatim; otherwise the chosen identifier is one of
the two generated ones (the tracer identifier or the random UUID, both
non-empty); and in every case the chosen identifier is written onto the
inbound request's header set and onto the response headers. -/
theorem c7_request_id : ∀ (hdrs : Headers) (tracer : Option String) (randomId : String),
    randomId ≠ "" →
    (tagRequest hdrs tracer randomId).reqHeaders.xRequestId
        = some (tagRequest hdrs tracer randomId).responseXRequestId ∧
    (tagRequest hdrs tracer randomId).responseXRequestId ≠ "" ∧
    (∀ s, hdrs.xRequestId = some s → s ≠ "" →
      (tagRequest hdrs tracer randomId).responseXRequestId = s) := by
  intro hdrs tracer randomId hrand
  refine ⟨rfl, ?_, ?_⟩
  · simp only [tagRequest, chooseRequestId]
    split
    · rename_i h
      cases hx : hdrs.xRequestId with
      | none => rw [hx] at h; simp [truthy] at h
      | some s =>
        rw [hx] at h
        simp [truthy] at h
        simp [hx, jsGetD, h]
    · split
      · rename_i h
        cases ht : tracer with
        | none => rw [ht] at h; simp [truthy] at h
        | some s =>
          rw [ht] at h
          simp [truthy] at h
          simp [ht, jsGetD, h]
      · exact hrand
  · intro s hs hne
    simp [tagRequest, chooseRequestId, hs, truthy, hne, jsGetD]

theorem c7_request_id_witness :
    (tagRequest ⟨none, none, none, none, some "client-id-1"⟩ none
        "f47ac10b-58cc-4372-a567-0e02b2c3d479").reqHeaders.xRequestId
      = some (tagRequest ⟨none, none, none, none, some "client-id-1"⟩ none
        "f47ac10b-58cc-4372-a567-0e02b2c3d479").responseXRequestId ∧
    (tagRequest ⟨none, none, none, none, some "client-id-1"⟩ none
        "f47ac10b-58cc-4372-a567-0e02b2c3d479").responseXRequestId ≠ "" ∧
    (tagRequest ⟨none, none, none, none, some "client-id-1"⟩ none
        "f47ac10b-58cc-4372-a567-0e02b2c3d479").responseXRequestId = "client-id-1" := by
  obtain ⟨a, b, c⟩ := c7_request_id ⟨none, none, none, none, some "client-id-1"⟩ none
    "f47ac10b-58cc-4372-a567-0e02b2c3d479" (by decide)
  exact ⟨a, b, c "client-id-1" rfl (by decide)⟩

/-- C9 counterexample: at the concrete failing input — the orders upstream
refusing connections — the response produced through the gateway's proxy
configuration is the proxy library's default (status 504, plain-text body),
which carries no JSON error envelope and in particular not the
`UPSTREAM_UNAVAILABLE` code the claim states. -/
theorem c9_no_upstream_unavailable_code :
    (proxyFailureResponse servicesOrders .connRefused).jsonErrorCode = none ∧
    (proxyFailureResponse servicesOrders .connRefused).jsonErrorCode
        ≠ some "UPSTREAM_UNAVAILABLE" ∧
    "UPSTREAM_UNAVAILABLE" ∉ gatewayErrorCodes := by
  refine ⟨rfl, by decide, by decide⟩

/-- C9 amended: the gateway configures neither an error handler nor a
timeout on either proxy, defines no `UPSTREAM_UNAVAILABLE` error code, and
an unreachable or timed-out upstream is answered by the proxy library's
default — a 504 with a plain-text body and no machine-readable code in the
repository's envelope format. -/
theorem c9_proxy_failure_is_library_default :
    servicesOrders.onError = none ∧ servicesUsers.onError = none ∧
    servicesOrders.timeout = none ∧ servicesOrders.proxyTimeout = none ∧
    servicesUsers.timeout = none ∧ servicesUsers.proxyTimeout = none ∧
    (proxyFailureResponse servicesOrders .connRefused).status = 504 ∧
    (proxyFailureResponse servicesOrders .connRefused).jsonErrorCode = none ∧
    (proxyFailureResponse servicesUsers .timedOut).jsonErrorCode = none :=
  ⟨rfl, rfl, rfl, rfl, rfl, rfl, rfl, rfl, rfl⟩

/-- C3 counterexample: with a non-empty `x-user-id` but a malformed
`x-user-roles` header and a valid bearer token also present, the identity is
built from the token, not from the propagated headers — the `JSON.parse`
exception aborts strategy 1 and falls through. -/
theorem c3_headers_do_not_always_win :
    Orders.authenticateToken ⟨some "Bearer tok", some "u1", some "e@x", some "\x7b", none⟩
        (fun _ => .ok ⟨"t2", "t@e.com", some ["manager"]⟩)
      = ⟨"t2", "t@e.com", ["manager"]⟩ ∧
    (⟨some "Bearer tok", some "u1", some "e@x", some "\x7b", none⟩ : Headers).xUserId
      = some "u1" ∧
    (Orders.authenticateToken ⟨some "Bearer tok", some "u1", some "e@x", some "\x7b", none⟩
        (fun _ => .ok ⟨"t2", "t@e.com", some ["manager"]⟩)).id ≠ "u1" := by
  refine ⟨by decide, rfl, by decide⟩

/-- C3 amended: the middleware tries the three strategies in order, stopping
at the first success; strategy 1 succeeds — independently of any bearer
token, even an invalid one — whenever `x-user-id` is truthy and the roles
header is either absent/empty or parses as a JSON string array; when
strategy 1 fails the verified token wins; when both fail the fixed default
identity is used and the request proceeds un-denied. -/
theorem c3_strategy_order : ∀ (hdrs : Headers) (verify : Verifier),
    (∀ u, Orders.strategyHeaders hdrs = some u →
        Orders.authenticateToken hdrs verify = u) ∧
    (Orders.strategyHeaders hdrs = none →
      ∀ u, Orders.strategyToken hdrs.authorization verify = some u →
        Orders.authenticateToken hdrs verify = u) ∧
    (Orders.strategyHeaders hdrs = none →
      Orders.strategyToken hdrs.authorization verify = none →
        Orders.authenticateToken hdrs verify = Orders.defaultUser) ∧
    (truthy hdrs.xUserId = true →
      (truthy hdrs.xUserRoles = false ∨
        (jsonParseStringArray (jsGetD hdrs.xUserRoles)).isSome = true) →
      (Orders.strategyHeaders hdrs).isSome = true) := by
  intro hdrs verify
  refine ⟨?_, ?_, ?_, ?_⟩
  · intro u h
    simp [Orders.authenticateToken, h]
  · intro h u ht
    simp [Orders.authenticateToken, h, ht]
  · intro h ht
    simp [Orders.authenticateToken, h, ht]
  · intro hid hr
    simp only [Orders.strategyHeaders, if_pos hid]
    by_cases htr : truthy hdrs.xUserRoles
    · rcases hr with hr | hr
      · rw [htr] at hr; cases hr
      · cases hp : jsonParseStringArray (jsGetD hdrs.xUserRoles) with
        | none => rw [hp] at hr; simp at hr
        | some rs => simp [htr, hp]
    · simp [htr]

theorem c3_strategy_order_witness :
    Orders.authenticateToken ⟨some "Bearer bad", some "u1", some "a@b.com",
        some "[\"manager\"]", none⟩ (fun _ => .error .invalid)
      = ⟨"u1", "a@b.com", ["manager"]⟩ ∧
    (Orders.strategyHeaders ⟨some "Bearer bad", some "u1", some "a@b.com",
        some "[\"manager\"]", none⟩).isSome = true :=
  ⟨(c3_strategy_order ⟨some "Bearer bad", some "u1", some "a@b.com",
      some "[\"manager\"]", none⟩ (fun _ => .error .invalid)).1
        ⟨"u1", "a@b.com", ["manager"]⟩ (by decide),
   (c3_strategy_order ⟨some "Bearer bad", some "u1", some "a@b.com",
      some "[\"manager\"]", none⟩ (fun _ => .error .invalid)).2.2.2 (by decide)
        (Or.inr (by decide))⟩

/-- C6 counterexample: the round trip fails on the claim set with an empty
subject id — the injected `x-user-id` header is empty, so the internal
headers path is not taken and the degraded default identity is produced
instead of the original claims. -/
theorem c6_empty_id_breaks_roundtrip :
    gatewayToInternal ⟨"", "a@b.com", ["manager"]⟩ (fun _ => .error .invalid)
        = Orders.defaultUser ∧
    gatewayToInternal ⟨"", "a@b.com", ["manager"]⟩ (fun _ => .error .invalid)
        ≠ ⟨"", "a@b.com", ["manager"]⟩ := by
  refine ⟨by decide, by decide⟩

/-- C6 amended: for every claim set whose subject id is non-empty, injecting
it into the identity headers at the gateway, proxying, and reconstructing it
through the internal service's headers path yields the original claim set. -/
theorem c6_roundtrip : ∀ (c : Identity) (verify : Verifier), c.id ≠ "" →
    gatewayToInternal c verify = c := by
  intro c verify h
  unfold gatewayToInternal
  rw [proxyOutbound_eq]
  have hinj : Gateway.injectHeaders emptyHeaders ⟨c.id, c.email, some c.roles⟩
      = ⟨none, some c.id, some c.email, some (jsonStringifyStringArray c.roles), none⟩ := by
    simp [Gateway.injectHeaders, emptyHeaders]
  rw [hinj]
  have h1 : truthy (some c.id) = true := by simp [truthy, h]
  have h2 : truthy (some (jsonStringifyStringArray c.roles)) = true := by
    simp [truthy, jsonStringify_ne_empty c.roles]
  simp [Orders.authenticateToken, Orders.strategyHeaders, h1, h2, jsGetD,
    jsonParse_stringify]

theorem c6_roundtrip_witness :
    gatewayToInternal ⟨"u1", "a@b.com", ["manager"]⟩ (fun _ => .error .invalid)
      = ⟨"u1", "a@b.com", ["manager"]⟩ :=
  c6_roundtrip ⟨"u1", "a@b.com", ["manager"]⟩ (fun _ => .error .invalid) (by decide)


theorem strategyHeaders_some_inv {hdrs : Headers} {u : Identity}
    (hh : Orders.strategyHeaders hdrs = some u) :
    truthy hdrs.xUserId = true ∧
    ((truthy hdrs.xUserRoles = true ∧
        ∃ rs, jsonParseStringArray (jsGetD hdrs.xUserRoles) = some rs ∧
          u = ⟨jsGetD hdrs.xUserId, jsGetD hdrs.xUserEmail, rs⟩) ∨
      (truthy hdrs.xUserRoles = false ∧
        u = ⟨jsGetD hdrs.xUserId, jsGetD hdrs.xUserEmail, ["engineer"]⟩)) := by
  unfold Orders.strategyHeaders at hh
  by_cases hid : truthy hdrs.xUserId
  · rw [if_pos hid] at hh
    by_cases hro : truthy hdrs.xUserRoles
    · rw [if_pos hro] at hh
      cases hp : jsonParseStringArray (jsGetD hdrs.xUserRoles) with
      | none => rw [hp] at hh; simp at hh
      | some rs =>
        rw [hp] at hh
        simp at hh
        exact ⟨hid, Or.inl ⟨hro, rs, rfl, hh.symm⟩⟩
    · rw [if_neg hro] at hh
      simp at hh
      exact ⟨hid, Or.inr ⟨by simpa using hro, hh.symm⟩⟩
  · rw [if_neg hid] at hh
    simp at hh

theorem strategyToken_some_inv {auth : Option String} {verify : Verifier} {u : Identity}
    (ht : Orders.strategyToken auth verify = some u) :
    ∃ tok p, extractBearer auth = some tok ∧ verify tok = .ok p ∧
      u = ⟨p.id, p.email, rolesOrDefault p.roles⟩ := by
  unfold Orders.strategyToken at ht
  cases he : extractBearer auth with
  | none => rw [he] at ht; simp at ht
  | some tok =>
    rw [he] at ht
    simp only [] at ht
    cases hv : verify tok with
    | error e => rw [hv] at ht; simp at ht
    | ok p =>
      rw [hv] at ht
      simp at ht
      exact ⟨tok, p, rfl, hv, ht.symm⟩

/-- C8 counterexample: a request whose `x-user-roles` header is the explicit
empty JSON array passes the internal headers checkpoint with an empty role
set — the baseline default applies only when the header is absent. -/
theorem c8_empty_roles_after_auth :
    (Orders.authenticateToken ⟨none, some "u1", some "a@b.com", some "[]", none⟩
        (fun _ => .error .invalid)).roles = [] ∧
    (⟨none, some "u1", some "a@b.com", some "[]", none⟩ : Headers).xUserId
      = some "u1" := by
  refine ⟨by decide, rfl⟩

/-- C8 amended: after the orders service's authentication the role set is
empty only when the source explicitly carries an empty role list (a roles
header parsing to the empty array, or a verified token whose roles field is
the empty array); when the headers path is taken with no roles header the
identity gets the single baseline role engineer. -/
theorem c8_roles_characterization : ∀ (hdrs : Headers) (verify : Verifier),
    ((Orders.authenticateToken hdrs verify).roles = [] →
      (truthy hdrs.xUserRoles = true ∧
        jsonParseStringArray (jsGetD hdrs.xUserRoles) = some []) ∨
      (∃ tok p, extractBearer hdrs.authorization = some tok ∧
        verify tok = .ok p ∧ p.roles = some [])) ∧
    (truthy hdrs.xUserId = true → truthy hdrs.xUserRoles = false →
      (Orders.authenticateToken hdrs verify).roles = ["engineer"]) := by
  intro hdrs verify
  constructor
  · intro hempty
    cases hh : Orders.strategyHeaders hdrs with
    | some u =>
      have hau : Orders.authenticateToken hdrs verify = u := by
        simp [Orders.authenticateToken, hh]
      rw [hau] at hempty
      obtain ⟨hid, hcase⟩ := strategyHeaders_some_inv hh
      rcases hcase with ⟨hro, rs, hp, hu⟩ | ⟨hro, hu⟩
      · subst hu
        left
        refine ⟨hro, ?_⟩
        rw [hp]
        simpa using hempty
      · subst hu
        simp at hempty
    | none =>
      cases ht : Orders.strategyToken hdrs.authorization verify with
      | some u =>
        have hau : Orders.authenticateToken hdrs verify = u := by
          simp [Orders.authenticateToken, hh, ht]
        rw [hau] at hempty
        obtain ⟨tok, p, he, hv, hu⟩ := strategyToken_some_inv ht
        subst hu
        right
        refine ⟨tok, p, he, hv, ?_⟩
        cases hr : p.roles with
        | none => rw [hr] at hempty; simp [rolesOrDefault] at hempty
        | some rs =>
          rw [hr] at hempty
          simp only [rolesOrDefault] at hempty
          rw [hempty]
      | none =>
        have hau : Orders.authenticateToken hdrs verify = Orders.defaultUser := by
          simp [Orders.authenticateToken, hh, ht]
        rw [hau] at hempty
        simp [Orders.defaultUser] at hempty
  · intro hid hro
    simp [Orders.authenticateToken, Orders.strategyHeaders, hid, hro]

theorem c8_roles_characterization_witness :
    ((truthy (Headers.mk none (some "u1") (some "a@b.com") (some "[]") none).xUserRoles = true ∧
        jsonParseStringArray
          (jsGetD (Headers.mk none (some "u1") (some "a@b.com") (some "[]") none).xUserRoles)
          = some []) ∨
      (∃ tok p,
        extractBearer (Headers.mk none (some "u1") (some "a@b.com") (some "[]") none).authorization
          = some tok ∧
        (fun (_ : String) => (.error .invalid : Except VerifyError TokenPayload)) tok = .ok p ∧
        p.roles = some [])) ∧
    (Orders.authenticateToken ⟨none, some "u2", none, none, none⟩
        (fun _ => .error .invalid)).roles = ["engineer"] :=
  ⟨(c8_roles_characterization ⟨none, some "u1", some "a@b.com", some "[]", none⟩
      (fun _ => .error .invalid)).1 (by decide),
   (c8_roles_characterization ⟨none, some "u2", none, none, none⟩
      (fun _ => .error .invalid)).2 (by decide) (by decide)⟩

theorem sameExceptHashes_strip_map : ∀ s1 s2, sameExceptHashes s1 s2 = true →
    s1.map stripPassword = s2.map stripPassword := by
  intro s1
  induction s1 with
  | nil =>
    intro s2 h
    cases s2 with
    | nil => rfl
    | cons v vs => simp [sameExceptHashes] at h
  | cons u us ih =>
    intro s2 h
    cases s2 with
    | nil => simp [sameExceptHashes] at h
    | cons v vs =>
      simp only [sameExceptHashes, Bool.and_eq_true, beq_iff_eq] at h
      simp [h.1, ih vs h.2]

theorem sameExceptHashes_find : ∀ s1 s2, sameExceptHashes s1 s2 = true → ∀ uid,
    (s1.find? (fun u => u.id == uid)).map stripPassword
      = (s2.find? (fun u => u.id == uid)).map stripPassword := by
  intro s1
  induction s1 with
  | nil =>
    intro s2 h uid
    cases s2 with
    | nil => rfl
    | cons v vs => simp [sameExceptHashes] at h
  | cons u us ih =>
    intro s2 h uid
    cases s2 with
    | nil => simp [sameExceptHashes] at h
    | cons v vs =>
      simp only [sameExceptHashes, Bool.and_eq_true, beq_iff_eq] at h
      have hid : u.id = v.id := congrArg PublicUser.id h.1
      by_cases hu : (u.id == uid) = true
      · rw [List.find?_cons_of_pos us hu, List.find?_cons_of_pos vs (by rw [← hid]; exact hu)]
        simp [h.1]
      · rw [List.find?_cons_of_neg us hu,
          List.find?_cons_of_neg vs (by rw [← hid]; exact hu)]
        exact ih vs h.2 uid

theorem sameExceptHashes_filter : ∀ s1 s2, sameExceptHashes s1 s2 = true → ∀ r,
    sameExceptHashes (s1.filter (fun u => u.roles.contains r))
      (s2.filter (fun u => u.roles.contains r)) = true := by
  intro s1
  induction s1 with
  | nil =>
    intro s2 h r
    cases s2 with
    | nil => exact h
    | cons v vs => simp [sameExceptHashes] at h
  | cons u us ih =>
    intro s2 h r
    cases s2 with
    | nil => simp [sameExceptHashes] at h
    | cons v vs =>
      simp only [sameExceptHashes, Bool.and_eq_true, beq_iff_eq] at h
      have hro : u.roles = v.roles := congrArg PublicUser.roles h.1
      by_cases hc : (u.roles.contains r) = true
      · have hcv : v.roles.contains r = true := by rw [← hro]; exact hc
        simp only [List.filter_cons, hc, hcv, if_true]
        simp only [sameExceptHashes, Bool.and_eq_true, beq_iff_eq]
        exact ⟨h.1, ih vs h.2 r⟩
      · have hcv : ¬ (v.roles.contains r = true) := by rw [← hro]; exact hc
        simp only [List.filter_cons, hc, hcv, if_false]
        exact ih vs h.2 r

theorem sameExceptHashes_length : ∀ s1 s2, sameExceptHashes s1 s2 = true →
    s1.length = s2.length := by
  intro s1 s2 h
  have := congrArg List.length (sameExceptHashes_strip_map s1 s2 h)
  simpa using this

/-- C10: confirmed.  For any two user stores that differ only in some
users' stored password hashes, the profile endpoint and the admin listing
endpoint return identical responses on every input — so no success response
ever depends on (or contains) a stored password hash. -/
theorem c10_no_password_leak : ∀ (s1 s2 : List StoredUser),
    sameExceptHashes s1 s2 = true →
    ∀ (uid : String) (page limit : Nat) (role : Option String),
      Users.getProfile s1 uid = Users.getProfile s2 uid ∧
      Users.listUsers s1 page limit role = Users.listUsers s2 page limit role := by
  intro s1 s2 h uid page limit role
  constructor
  · have hfind := sameExceptHashes_find s1 s2 h uid
    unfold Users.getProfile
    cases h1 : s1.find? (fun u : StoredUser => u.id == uid) with
    | none =>
      cases h2 : s2.find? (fun u : StoredUser => u.id == uid) with
      | none => rfl
      | some v => rw [h1, h2] at hfind; simp at hfind
    | some u =>
      cases h2 : s2.find? (fun u : StoredUser => u.id == uid) with
      | none => rw [h1, h2] at hfind; simp at hfind
      | some v =>
        rw [h1, h2] at hfind
        simp at hfind
        simp [hfind]
  · cases role with
    | none =>
      have hmap := sameExceptHashes_strip_map s1 s2 h
      have hlen := sameExceptHashes_length s1 s2 h
      simp only [Users.listUsers, UsersListResponse.mk.injEq, eq_self_iff_true,
        true_and, and_true]
      refine ⟨?_, hlen, by rw [hlen]⟩
      rw [List.map_take, List.map_drop, List.map_take, List.map_drop, hmap]
    | some r =>
      have hfil := sameExceptHashes_filter s1 s2 h r
      have hmap := sameExceptHashes_strip_map _ _ hfil
      have hlen := sameExceptHashes_length _ _ hfil
      simp only [Users.listUsers, UsersListResponse.mk.injEq, eq_self_iff_true,
        true_and, and_true]
      refine ⟨?_, hlen, by rw [hlen]⟩
      rw [List.map_take, List.map_drop, List.map_take, List.map_drop, hmap]

theorem c10_no_password_leak_witness :
    Users.getProfile [⟨"u1", "a@b.com", "hash-one", "Ann", ["admin"], "t0", "t0"⟩] "u1"
      = Users.getProfile [⟨"u1", "a@b.com", "hash-two", "Ann", ["admin"], "t0", "t0"⟩] "u1" ∧
    Users.listUsers [⟨"u1", "a@b.com", "hash-one", "Ann", ["admin"], "t0", "t0"⟩] 1 10 none
      = Users.listUsers [⟨"u1", "a@b.com", "hash-two", "Ann", ["admin"], "t0", "t0"⟩] 1 10 none :=
  c10_no_password_leak
    [⟨"u1", "a@b.com", "hash-one", "Ann", ["admin"], "t0", "t0"⟩]
    [⟨"u1", "a@b.com", "hash-two", "Ann", ["admin"], "t0", "t0"⟩]
    (by decide) "u1" 1 10 none
